import Mathlib

/-!
Shallow embedding of the `gemini-qa-app` repository:
a Vercel serverless WeChat webhook (verification handshake + XML message
round-trip through the Gemini generative-text API) and a small browser form
that submits a prompt to the same API.

The webhook file (src/unnamed/part_000) is embedded function by function:
`handleVerification`, `handleMessage`, `getGeminiResponse`, `sendReply`.
External collaborators are embedded as follows:
* Node's `crypto` SHA-1 is implemented concretely (`sha1Hex`), byte-exact,
  over the UTF-8 encoding of the input string, producing a lowercase hex
  digest, as `crypto.createHash('sha1').update(s).digest('hex')` does;
* the JavaScript default `Array.prototype.sort` comparator (UTF-16
  code-unit lexicographic order) is implemented as `sortStrs`;
* the xml2js `Builder({ cdata: true })` text-node serialization is
  implemented in `contentElementInner` following xml2js's
  `requiresCDATA` / `wrapCDATA` / `escapeCDATA` (note: `escapeCDATA` uses
  JavaScript `String.replace` with a string pattern, which replaces only
  the FIRST occurrence of "]]>");
* the Gemini client is an oracle parameter (`GenOutcome`): a call either
  resolves with a nullable `text` field or throws;
* XML parsing plus mandatory-field extraction (`parseStringPromise` and the
  subsequent `message.MsgType[0]` etc. indexing, any failure of which lands
  in the same `catch`) is an oracle parameter `String → Option InboundMsg`.
-/

/-- An HTTP response as produced by `res.status(n).send(body)`. -/
structure HttpResponse where
  status : Nat
  body : String
deriving DecidableEq

/-! ### SHA-1 (Node `crypto`, `digest('hex')`) -/

/-- UTF-8 encoding of one character (code point), as `Buffer.from(s)` uses. -/
def charUtf8 (c : Char) : List Nat :=
  let n := c.toNat
  if n < 0x80 then [n]
  else if n < 0x800 then [0xC0 + n / 0x40, 0x80 + n % 0x40]
  else if n < 0x10000 then
    [0xE0 + n / 0x1000, 0x80 + (n / 0x40) % 0x40, 0x80 + n % 0x40]
  else
    [0xF0 + n / 0x40000, 0x80 + (n / 0x1000) % 0x40,
     0x80 + (n / 0x40) % 0x40, 0x80 + n % 0x40]

/-- UTF-8 byte sequence of a string. -/
def utf8Bytes (s : String) : List Nat :=
  (s.data.map charUtf8).flatten

/-- Rotate a 32-bit word left by `k` bits. -/
def rotl (k w : Nat) : Nat :=
  ((w <<< k) % 2 ^ 32) ||| (w >>> (32 - k))

/-- The 8 big-endian bytes of the 64-bit message bit-length. -/
def lenBytes (n : Nat) : List Nat :=
  [n / 2 ^ 56 % 256, n / 2 ^ 48 % 256, n / 2 ^ 40 % 256, n / 2 ^ 32 % 256,
   n / 2 ^ 24 % 256, n / 2 ^ 16 % 256, n / 2 ^ 8 % 256, n % 256]

/-- SHA-1 padding: append 0x80, zero-pad to 56 mod 64, append bit length. -/
def sha1Pad (msg : List Nat) : List Nat :=
  let zeros := (64 - (msg.length + 9) % 64) % 64
  msg ++ [0x80] ++ List.replicate zeros 0 ++ lenBytes (msg.length * 8)

/-- Group a byte list into big-endian 32-bit words. -/
def bytesToWords : List Nat → List Nat
  | b0 :: b1 :: b2 :: b3 :: rest =>
      (((b0 * 256 + b1) * 256 + b2) * 256 + b3) :: bytesToWords rest
  | _ => []

/-- Extend the 16 schedule words of a chunk to 80. -/
def sha1Extend (w : List Nat) : List Nat :=
  (List.range 64).foldl
    (fun acc i =>
      acc ++ [rotl 1 (acc.getD (i + 13) 0 ^^^ acc.getD (i + 8) 0 ^^^
                      acc.getD (i + 2) 0 ^^^ acc.getD i 0)])
    w

/-- One SHA-1 compression round. -/
def sha1Round (w : List Nat) (st : Nat × Nat × Nat × Nat × Nat) (i : Nat) :
    Nat × Nat × Nat × Nat × Nat :=
  let (a, b, c, d, e) := st
  let f :=
    if i < 20 then (b &&& c) ||| ((2 ^ 32 - 1 - b) &&& d)
    else if i < 40 then b ^^^ c ^^^ d
    else if i < 60 then (b &&& c) ||| (b &&& d) ||| (c &&& d)
    else b ^^^ c ^^^ d
  let k :=
    if i < 20 then 0x5A827999
    else if i < 40 then 0x6ED9EBA1
    else if i < 60 then 0x8F1BBCDC
    else 0xCA62C1D6
  let temp := (rotl 5 a + f + e + k + w.getD i 0) % 2 ^ 32
  (temp, a, rotl 30 b, c, d)

/-- Process one 512-bit chunk (given as 16 words). -/
def sha1Block (h : Nat × Nat × Nat × Nat × Nat) (chunk : List Nat) :
    Nat × Nat × Nat × Nat × Nat :=
  let w := sha1Extend chunk
  let (h0, h1, h2, h3, h4) := h
  let (a, b, c, d, e) := (List.range 80).foldl (sha1Round w) (h0, h1, h2, h3, h4)
  ((h0 + a) % 2 ^ 32, (h1 + b) % 2 ^ 32, (h2 + c) % 2 ^ 32,
   (h3 + d) % 2 ^ 32, (h4 + e) % 2 ^ 32)

/-- Fold over all chunks; `n` is the number of 16-word chunks. -/
def sha1Loop : Nat → (Nat × Nat × Nat × Nat × Nat) → List Nat →
    Nat × Nat × Nat × Nat × Nat
  | 0, h, _ => h
  | n + 1, h, ws => sha1Loop n (sha1Block h (ws.take 16)) (ws.drop 16)

/-- Lowercase hexadecimal digit. -/
def hexDigit (n : Nat) : Char :=
  if n < 10 then Char.ofNat (48 + n) else Char.ofNat (87 + n)

/-- A 32-bit word as 8 lowercase hex characters. -/
def wordHex (w : Nat) : String :=
  String.mk ((List.range 8).map (fun i => hexDigit (w / 16 ^ (7 - i) % 16)))

/-- `crypto.createHash('sha1').update(s).digest('hex')`: the lowercase hex
SHA-1 digest of the UTF-8 bytes of `s`. -/
def sha1Hex (s : String) : String :=
  let ws := bytesToWords (sha1Pad (utf8Bytes s))
  let r := sha1Loop (ws.length / 16)
    (0x67452301, 0xEFCDAB89, 0x98BADCFE, 0x10325476, 0xC3D2E1F0) ws
  wordHex r.1 ++ wordHex r.2.1 ++ wordHex r.2.2.1 ++ wordHex r.2.2.2.1 ++
    wordHex r.2.2.2.2

/-! ### JavaScript default string sort (UTF-16 code-unit order) -/

/-- The UTF-16 code units of one character. -/
def charUtf16 (c : Char) : List Nat :=
  let n := c.toNat
  if n < 0x10000 then [n]
  else [0xD800 + (n - 0x10000) / 0x400, 0xDC00 + (n - 0x10000) % 0x400]

/-- The UTF-16 code-unit sequence of a string. -/
def utf16Units (s : String) : List Nat :=
  (s.data.map charUtf16).flatten

/-- Lexicographic `≤` on code-unit sequences. -/
def lexLeN : List Nat → List Nat → Bool
  | [], _ => true
  | _ :: _, [] => false
  | a :: as, b :: bs => if a < b then true else if b < a then false else lexLeN as bs

/-- JavaScript `a <= b` on strings: UTF-16 code-unit lexicographic order. -/
def jsStrLe (a b : String) : Bool :=
  lexLeN (utf16Units a) (utf16Units b)

/-- Insertion into a sorted list under `jsStrLe`. -/
def insertStr (x : String) : List String → List String
  | [] => [x]
  | y :: ys => if jsStrLe x y then x :: y :: ys else y :: insertStr x ys

/-- `Array.prototype.sort()` with the default comparator, on strings. -/
def sortStrs (l : List String) : List String :=
  l.foldr insertStr []

/-! ### The WeChat verification handler (GET) -/

/-- The four query parameters of a verification request; `none` models an
absent parameter. -/
structure VerifyQuery where
  signature : Option String
  timestamp : Option String
  nonce : Option String
  echostr : Option String
deriving DecidableEq

/-- JavaScript truthiness of a possibly-absent string query parameter:
`undefined` and the empty string are falsy. -/
def truthy : Option String → Bool
  | none => false
  | some s => s != ""

/-- `handleVerification` from src/unnamed/part_000 lines 30-46: checks the
four parameters for truthiness (400 if any is falsy), sorts
`[token, timestamp, nonce]` with the default JS sort, SHA-1-hashes their
concatenation, and answers 200/echostr on signature match, 403 otherwise. -/
def handleVerification (token : String) (q : VerifyQuery) : HttpResponse :=
  if !truthy q.signature || !truthy q.timestamp || !truthy q.nonce ||
      !truthy q.echostr then
    ⟨400, "Missing verification parameters."⟩
  else
    let list := sortStrs [token, q.timestamp.getD "", q.nonce.getD ""]
    let sha1 := sha1Hex (String.join list)
    if sha1 = q.signature.getD "" then ⟨200, q.echostr.getD ""⟩
    else ⟨403, "Verification failed."⟩

/-- The digest the claim describes: lowercase hex SHA-1 of the concatenation
of the lexicographically sorted list `[token, timestamp, nonce]`. -/
def wechatDigest (token timestamp nonce : String) : String :=
  sha1Hex (String.join (sortStrs [token, timestamp, nonce]))

/-- Map a present-but-empty query parameter to an absent one. -/
def dropEmpty : Option String → Option String
  | some "" => none
  | x => x

/-- Replace every present-but-empty parameter of a query by an absent one. -/
def dropEmptyQuery (q : VerifyQuery) : VerifyQuery :=
  ⟨dropEmpty q.signature, dropEmpty q.timestamp, dropEmpty q.nonce,
   dropEmpty q.echostr⟩

/-! ### The xml2js `Builder({ cdata: true })` text-node serialization -/

/-- The terminator of a CDATA section, `]]>`. -/
def cdEnd : List Char := [']', ']', '>']

/-- The opener of a CDATA section, `<![CDATA[`. -/
def cdOpen : List Char := ['<', '!', '[', 'C', 'D', 'A', 'T', 'A', '[']

/-- The xml2js replacement string `]]]]><![CDATA[>`: close after `]]`,
reopen, emit `>`. -/
def cdRepl : List Char :=
  [']', ']', ']', ']', '>', '<', '!', '[', 'C', 'D', 'A', 'T', 'A', '[', '>']

/-- Does the list start with the three characters `]]>`? -/
def startsCD (l : List Char) : Bool :=
  decide (l.take 3 = cdEnd)

/-- Split at the FIRST occurrence of `]]>`: `some (before, after)`, or
`none` when the pattern does not occur. This is the search JavaScript
`String.replace` performs with the string pattern `']]>'`. -/
def splitCD : List Char → Option (List Char × List Char)
  | [] => none
  | c :: cs =>
    if startsCD (c :: cs) then some ([], cs.drop 2)
    else
      match splitCD cs with
      | none => none
      | some (a, b) => some (c :: a, b)

/-- xml2js `escapeCDATA`: `entry.replace(']]>', ']]]]><![CDATA[>')` —
a string-pattern `replace`, so only the FIRST occurrence is rewritten. -/
def escapeCDATA (l : List Char) : List Char :=
  match splitCD l with
  | none => l
  | some (a, b) => a ++ cdRepl ++ b

/-- xml2js `wrapCDATA`: `"<![CDATA[" + escapeCDATA(entry) + "]]>"`. -/
def wrapCDATA (l : List Char) : List Char :=
  cdOpen ++ escapeCDATA l ++ cdEnd

/-- xml2js `requiresCDATA` (with `cdata: true` and a string entry): the
entry contains `&`, `>` or `<`. -/
def requiresCDATA (l : List Char) : Bool :=
  l.any (fun c => c == '&' || c == '>' || c == '<')

/-- The character data xml2js's Builder puts inside a text element: CDATA
wrapping when needed, otherwise the text itself (which then contains no
`&`, `<` or `>`, so xmlbuilder's entity escaping is the identity on it). -/
def contentElementInner (l : List Char) : List Char :=
  if requiresCDATA l then wrapCDATA l else l

/-- String-level view of `contentElementInner`. -/
def encodeText (s : String) : String :=
  String.mk (contentElementInner s.data)

/-! ### A reference decoder for element content

`decodeChunks` parses what may legally stand between `<Tag>` and `</Tag>`
for a text element: a sequence of CDATA sections and character data, where
character data may not contain `<` or `&` or the sequence `]]>`. It
returns the decoded text, or `none` when the content is not well-formed
XML element content. It is fuel-indexed (the fuel bounds the number of
parsing steps; the content's length always suffices). -/
def decodeChunks : Nat → List Char → Option (List Char)
  | _, [] => some []
  | 0, _ :: _ => none
  | fuel + 1, c :: cs =>
    if (c :: cs).take 9 = cdOpen then
      match splitCD ((c :: cs).drop 9) with
      | none => none
      | some (content, rest) =>
        match decodeChunks fuel rest with
        | none => none
        | some t => some (content ++ t)
    else if c == '<' || c == '&' then none
    else if startsCD (c :: cs) then none
    else
      match decodeChunks fuel cs with
      | none => none
      | some t => some (c :: t)

/-- Decode well-formed element content back to its text. -/
def decodeInner (l : List Char) : Option (List Char) :=
  decodeChunks l.length l

/-- Number of occurrences of `]]>` in a character list (the pattern cannot
overlap itself, so this is the plain occurrence count). -/
def cdOccs : List Char → Nat
  | [] => 0
  | c :: cs => (if startsCD (c :: cs) then 1 else 0) + cdOccs cs

/-! ### The WeChat message handler (POST) -/

/-- The inbound message fields the handler reads:
`MsgType[0]`, `Content[0]`, `FromUserName[0]`, `ToUserName[0]`. -/
structure InboundMsg where
  msgType : String
  content : String
  fromUser : String
  toUser : String
deriving DecidableEq

/-- The fields of the outbound reply envelope built by `sendReply`. -/
structure OutboundXml where
  toUserName : String
  fromUserName : String
  createTime : Nat
  msgType : String
  content : String
deriving DecidableEq

/-- One Gemini `generateContent` call: it either resolves with a nullable
`text` field or throws. -/
inductive GenOutcome
  | ok (text : Option String)
  | err
deriving DecidableEq

/-- `getGeminiResponse` from src/unnamed/part_000 lines 102-113: returns
`result.text ?? "I'm not sure how to respond to that."`, and catches any
API error, returning the fixed trouble string instead. -/
def getGeminiResponse (api : String → GenOutcome) (prompt : String) : String :=
  match api prompt with
  | .ok (some t) => t
  | .ok none => "I'm not sure how to respond to that."
  | .err => "Sorry, I'm having trouble thinking right now. Please try again later."

/-- The XML reply string `sendReply` builds with
`new Builder({ cdata: true })` over the payload object (xml2js default
XML declaration and two-space pretty printing). -/
def buildReplyXml (r : OutboundXml) : String :=
  "<?xml version=\"1.0\" encoding=\"UTF-8\" standalone=\"yes\"?>\n<xml>\n  <ToUserName>"
    ++ encodeText r.toUserName
    ++ "</ToUserName>\n  <FromUserName>" ++ encodeText r.fromUserName
    ++ "</FromUserName>\n  <CreateTime>" ++ toString r.createTime
    ++ "</CreateTime>\n  <MsgType>" ++ encodeText r.msgType
    ++ "</MsgType>\n  <Content>" ++ encodeText r.content
    ++ "</Content>\n</xml>"

/-- The payload `sendReply` serializes (src/unnamed/part_000 lines 116-125):
`ToUserName := originalMessage.ToUserName[0]`,
`FromUserName := originalMessage.FromUserName[0]`, current Unix seconds,
fixed `MsgType 'text'`, and the given content. `origTo`/`origFrom` are the
`ToUserName[0]`/`FromUserName[0]` of the object the CALLER passes. -/
def replyPayload (origTo origFrom : String) (now : Nat) (content : String) :
    OutboundXml :=
  ⟨origTo, origFrom, now, "text", content⟩

/-- The envelope `handleMessage` sends, if any (src/unnamed/part_000 lines
49-81). `parseXml` models `parseStringPromise` plus the subsequent field
indexing: `none` means that step threw (malformed XML or missing field),
which the `catch` turns into an empty 200. On the non-text path the code
passes the inbound `message` itself to `sendReply`, so the names are
copied unswapped; on the text path it passes
`{ FromUserName: [toUser], ToUserName: [fromUser] }`, a swapped object. -/
def handleMessagePayload (api : String → GenOutcome)
    (parseXml : String → Option InboundMsg) (now : Nat) (body : String) :
    Option OutboundXml :=
  match parseXml body with
  | none => none
  | some message =>
    if message.msgType ≠ "text" then
      some (replyPayload message.toUser message.fromUser now
        "Sorry, I can only understand text messages for now.")
    else
      some (replyPayload message.fromUser message.toUser now
        (getGeminiResponse api message.content))

/-- The HTTP response of `handleMessage`: an empty 200 when anything in the
`try` block threw, otherwise the 200 XML reply built by `sendReply`. -/
def handleMessage (api : String → GenOutcome)
    (parseXml : String → Option InboundMsg) (now : Nat) (body : String) :
    HttpResponse :=
  match handleMessagePayload api parseXml now body with
  | none => ⟨200, ""⟩
  | some p => ⟨200, buildReplyXml p⟩

/-! ### The prompt form (src/index.tsx) -/

/-- The four `useState` cells of the `App` component. -/
structure FormState where
  prompt : String
  response : String
  error : String
  loading : Bool
deriving DecidableEq

/-- One form-side `generateContent` call: it resolves with a nullable
`text`, or throws a value that is an `Error` carrying a message
(`isError = true`) or some non-`Error` value. -/
inductive SubmitOutcome
  | ok (text : Option String)
  | thrown (isError : Bool) (msg : String)
deriving DecidableEq

/-- The WhiteSpace/LineTerminator set JavaScript `String.prototype.trim`
strips. -/
def jsWhitespace (c : Char) : Bool :=
  c == ' ' || c == '\t' || c == '\n' || c == '\r' ||
  c.toNat == 0x0B || c.toNat == 0x0C || c.toNat == 0xA0 ||
  c.toNat == 0x1680 ||
  (0x2000 ≤ c.toNat && c.toNat ≤ 0x200A) ||
  c.toNat == 0x2028 || c.toNat == 0x2029 || c.toNat == 0x202F ||
  c.toNat == 0x205F || c.toNat == 0x3000 || c.toNat == 0xFEFF

/-- JavaScript `s.trim()`: strip leading and trailing whitespace. -/
def jsTrim (s : String) : String :=
  String.mk (((s.data.dropWhile jsWhitespace).reverse.dropWhile
    jsWhitespace).reverse)

/-- `handleSubmit` from src/index.tsx lines 17-38, as a state transition.
The returned Bool records whether the API was called. Empty-after-trim
prompt: return unchanged, no call. Otherwise: clear response and error,
set loading; on resolve set `response := result.text ?? ''`; on throw set
`error` to the `Error`'s message or `'An unknown error occurred.'`;
finally clear loading. -/
def handleSubmit (api : String → SubmitOutcome) (s : FormState) :
    FormState × Bool :=
  if jsTrim s.prompt = "" then (s, false)
  else
    let s1 : FormState := { s with loading := true, response := "", error := "" }
    match api s.prompt with
    | .ok t => ({ s1 with response := t.getD "", loading := false }, true)
    | .thrown isErr m =>
        ({ s1 with
            error := if isErr then m else "An unknown error occurred.",
            loading := false }, true)

/-! ### Concrete fixtures used by witnesses and counterexamples -/

/-- A fixed inbound text message. -/
def msgTextFix : InboundMsg := ⟨"text", "hello", "user1", "bot1"⟩

/-- A fixed inbound image (non-text) message. -/
def msgImgFix : InboundMsg := ⟨"image", "", "user1", "bot1"⟩

/-- A parser oracle that always yields the fixed text message. -/
def parseFixT : String → Option InboundMsg := fun _ => some msgTextFix

/-- A parser oracle that always yields the fixed image message. -/
def parseFixI : String → Option InboundMsg := fun _ => some msgImgFix

/-- An API oracle that always resolves with text "hi". -/
def apiOkFix : String → GenOutcome := fun _ => .ok (some "hi")

/-- An API oracle that always throws. -/
def apiErrFix : String → GenOutcome := fun _ => .err

/-- A form API oracle that always resolves with text "hi". -/
def formApiOkFix : String → SubmitOutcome := fun _ => .ok (some "hi")

/-- A form API oracle that always throws `new Error("boom")`. -/
def formApiErrFix : String → SubmitOutcome := fun _ => .thrown true "boom"

set_option maxRecDepth 100000

theorem sha1Hex_empty_vector :
    sha1Hex "" = "da39a3ee5e6b4b0d3255bfef95601890afd80709" := by decide

theorem sha1Hex_abc_vector :
    sha1Hex "abc" = "a9993e364706816aba3e25717850c26c9cd0d89d" := by decide

theorem sha1Hex_two_block_vector :
    sha1Hex "abcdbcdecdefdefgefghfghighijhijkijkljklmklmnlmnomnopnopq" =
      "84983e441c3bd26ebaae4aa1f95129e5e54670f1" := by decide

/-- C1: with all four verification parameters present and non-empty, the
handler answers 200 with body exactly `echostr` iff the supplied signature
equals the lowercase hex SHA-1 digest of the concatenation of the
lexicographically sorted list `[token, timestamp, nonce]`; otherwise it
answers 403. -/
theorem verification_sig_iff (token s t n e : String)
    (hs : s ≠ "") (ht : t ≠ "") (hn : n ≠ "") (he : e ≠ "") :
    ((handleVerification token ⟨some s, some t, some n, some e⟩ =
        ⟨200, e⟩) ↔ s = wechatDigest token t n) ∧
    (s ≠ wechatDigest token t n →
      handleVerification token ⟨some s, some t, some n, some e⟩ =
        ⟨403, "Verification failed."⟩) := by
  have hv : handleVerification token ⟨some s, some t, some n, some e⟩ =
      if wechatDigest token t n = s then ⟨200, e⟩
      else ⟨403, "Verification failed."⟩ := by
    simp [handleVerification, truthy, wechatDigest, bne_iff_ne, hs, ht, hn, he]
  refine ⟨⟨fun h => ?_, fun h => ?_⟩, fun hne => ?_⟩
  · by_cases hd : wechatDigest token t n = s
    · exact hd.symm
    · rw [hv, if_neg hd] at h
      simp at h
  · rw [hv, if_pos h.symm]
  · rw [hv, if_neg (fun hh => hne hh.symm)]

theorem verification_sig_iff_witness :
    ("a" : String) ≠ "" ∧ ("b" : String) ≠ "" ∧ ("c" : String) ≠ "" ∧
    ("d" : String) ≠ "" ∧
    (((handleVerification "tok" ⟨some "a", some "b", some "c", some "d"⟩ =
        ⟨200, "d"⟩) ↔ "a" = wechatDigest "tok" "b" "c") ∧
      ("a" ≠ wechatDigest "tok" "b" "c" →
        handleVerification "tok" ⟨some "a", some "b", some "c", some "d"⟩ =
          ⟨403, "Verification failed."⟩)) :=
  ⟨by decide, by decide, by decide, by decide,
   verification_sig_iff "tok" "a" "b" "c" "d"
     (by decide) (by decide) (by decide) (by decide)⟩

/-- C6: if at least one of the four verification parameters is absent, the
handler answers 400 — never 403, never 200. -/
theorem verification_missing_param (token : String) (q : VerifyQuery)
    (h : q.signature = none ∨ q.timestamp = none ∨ q.nonce = none ∨
      q.echostr = none) :
    (handleVerification token q).status = 400 ∧
    (handleVerification token q).status ≠ 403 ∧
    (handleVerification token q).status ≠ 200 := by
  have h4 : handleVerification token q =
      ⟨400, "Missing verification parameters."⟩ := by
    rcases h with h | h | h | h <;> simp [handleVerification, truthy, h]
  rw [h4]
  exact ⟨rfl, by decide, by decide⟩

theorem verification_missing_param_witness :
    ((none : Option String) = none ∨ (some "1" : Option String) = none ∨
      (some "2" : Option String) = none ∨ (some "3" : Option String) = none) ∧
    ((handleVerification "tok" ⟨none, some "1", some "2", some "3"⟩).status = 400 ∧
      (handleVerification "tok" ⟨none, some "1", some "2", some "3"⟩).status ≠ 403 ∧
      (handleVerification "tok" ⟨none, some "1", some "2", some "3"⟩).status ≠ 200) :=
  ⟨Or.inl rfl,
   verification_missing_param "tok" ⟨none, some "1", some "2", some "3"⟩
     (Or.inl rfl)⟩

/-- C10: a verification parameter that is present but empty is falsy in the
JavaScript guard, so the handler answers 400 exactly as if the parameter
were absent, and the response does not depend on the token (the digest is
never reached). -/
theorem verification_empty_param (token : String) (q : VerifyQuery)
    (h : q.signature = some "" ∨ q.timestamp = some "" ∨ q.nonce = some "" ∨
      q.echostr = some "") :
    handleVerification token q = ⟨400, "Missing verification parameters."⟩ ∧
    handleVerification token (dropEmptyQuery q) = handleVerification token q ∧
    ∀ token' : String, handleVerification token' q = handleVerification token q := by
  have hAll : ∀ tk : String,
      handleVerification tk q = ⟨400, "Missing verification parameters."⟩ := by
    intro tk
    rcases h with h | h | h | h <;> simp [handleVerification, truthy, h]
  have hDrop : handleVerification token (dropEmptyQuery q) =
      ⟨400, "Missing verification parameters."⟩ := by
    rcases h with h | h | h | h <;>
      simp [handleVerification, dropEmptyQuery, dropEmpty, truthy, h]
  exact ⟨hAll token, by rw [hDrop, hAll token],
    fun token' => by rw [hAll token', hAll token]⟩

theorem verification_empty_param_witness :
    ((some "" : Option String) = some "" ∨ (some "1" : Option String) = some "" ∨
      (some "2" : Option String) = some "" ∨ (some "3" : Option String) = some "") ∧
    (handleVerification "tok" ⟨some "", some "1", some "2", some "3"⟩ =
        ⟨400, "Missing verification parameters."⟩ ∧
      handleVerification "tok"
          (dropEmptyQuery ⟨some "", some "1", some "2", some "3"⟩) =
        handleVerification "tok" ⟨some "", some "1", some "2", some "3"⟩ ∧
      ∀ token' : String,
        handleVerification token' ⟨some "", some "1", some "2", some "3"⟩ =
          handleVerification "tok" ⟨some "", some "1", some "2", some "3"⟩) :=
  ⟨Or.inl rfl,
   verification_empty_param "tok" ⟨some "", some "1", some "2", some "3"⟩
     (Or.inl rfl)⟩

/-- C5: whatever the POST body, the parse outcome and the API behavior, the
message handler's response status is 200. -/
theorem message_always_200 (api : String → GenOutcome)
    (parseXml : String → Option InboundMsg) (now : Nat) (body : String) :
    (handleMessage api parseXml now body).status = 200 := by
  unfold handleMessage
  cases handleMessagePayload api parseXml now body <;> rfl

/-- C2: for an inbound text message, when the Gemini call resolves with
text, the outbound envelope swaps the user names, has `MsgType` text and
carries the API's text as `Content` — both at the payload level and in the
actual 200 XML response. -/
theorem message_text_reply (api : String → GenOutcome)
    (parseXml : String → Option InboundMsg) (now : Nat) (body : String)
    (m : InboundMsg) (txt : String)
    (hp : parseXml body = some m) (hty : m.msgType = "text")
    (ha : api m.content = .ok (some txt)) :
    handleMessagePayload api parseXml now body =
      some ⟨m.fromUser, m.toUser, now, "text", txt⟩ ∧
    handleMessage api parseXml now body =
      ⟨200, buildReplyXml ⟨m.fromUser, m.toUser, now, "text", txt⟩⟩ := by
  have hpay : handleMessagePayload api parseXml now body =
      some ⟨m.fromUser, m.toUser, now, "text", txt⟩ := by
    simp [handleMessagePayload, hp, hty, getGeminiResponse, ha, replyPayload]
  exact ⟨hpay, by simp [handleMessage, hpay]⟩

theorem message_text_reply_witness :
    parseFixT "b" = some msgTextFix ∧ msgTextFix.msgType = "text" ∧
    apiOkFix msgTextFix.content = .ok (some "hi") ∧
    (handleMessagePayload apiOkFix parseFixT 5 "b" =
        some ⟨msgTextFix.fromUser, msgTextFix.toUser, 5, "text", "hi"⟩ ∧
      handleMessage apiOkFix parseFixT 5 "b" =
        ⟨200, buildReplyXml ⟨msgTextFix.fromUser, msgTextFix.toUser, 5, "text", "hi"⟩⟩) :=
  ⟨rfl, rfl, rfl,
   message_text_reply apiOkFix parseFixT 5 "b" msgTextFix "hi" rfl rfl rfl⟩

/-- C3 (code bug): on the non-text path `sendReply` receives the inbound
message object itself, so the outbound envelope copies `ToUserName` and
`FromUserName` UNSWAPPED: for the inbound image message from "user1" to
"bot1" the reply is addressed `ToUserName = "bot1"`, not "user1" as the
claim (and the platform's envelope contract) requires. -/
theorem message_nontext_not_swapped :
    handleMessagePayload apiOkFix parseFixI 5 "b" =
      some ⟨msgImgFix.toUser, msgImgFix.fromUser, 5, "text",
        "Sorry, I can only understand text messages for now."⟩ ∧
    msgImgFix.toUser = "bot1" ∧ msgImgFix.fromUser = "user1" ∧
    msgImgFix.toUser ≠ msgImgFix.fromUser :=
  ⟨rfl, rfl, rfl, by decide⟩

/-- C7: a non-text inbound message is answered with the fixed apology as
`Content`, and the whole reply is the same whatever the API oracle does
(the API is never consulted on this path). -/
theorem message_nontext_apology (parseXml : String → Option InboundMsg)
    (now : Nat) (body : String) (m : InboundMsg)
    (hp : parseXml body = some m) (hty : m.msgType ≠ "text") :
    ∀ api : String → GenOutcome,
      handleMessagePayload api parseXml now body =
        some ⟨m.toUser, m.fromUser, now, "text",
          "Sorry, I can only understand text messages for now."⟩ ∧
      handleMessage api parseXml now body =
        ⟨200, buildReplyXml ⟨m.toUser, m.fromUser, now, "text",
          "Sorry, I can only understand text messages for now."⟩⟩ := by
  intro api
  have hpay : handleMessagePayload api parseXml now body =
      some ⟨m.toUser, m.fromUser, now, "text",
        "Sorry, I can only understand text messages for now."⟩ := by
    simp [handleMessagePayload, hp, hty, replyPayload]
  exact ⟨hpay, by simp [handleMessage, hpay]⟩

theorem message_nontext_apology_witness :
    parseFixI "b" = some msgImgFix ∧ msgImgFix.msgType ≠ "text" ∧
    ∀ api : String → GenOutcome,
      handleMessagePayload api parseFixI 5 "b" =
        some ⟨msgImgFix.toUser, msgImgFix.fromUser, 5, "text",
          "Sorry, I can only understand text messages for now."⟩ ∧
      handleMessage api parseFixI 5 "b" =
        ⟨200, buildReplyXml ⟨msgImgFix.toUser, msgImgFix.fromUser, 5, "text",
          "Sorry, I can only understand text messages for now."⟩⟩ :=
  ⟨rfl, by decide,
   message_nontext_apology parseFixI 5 "b" msgImgFix rfl (by decide)⟩

/-- C4 counterexample: when the Gemini call throws, `getGeminiResponse`
swallows the error and returns a fallback string, so the handler answers
200 with a full XML reply — the body is NOT empty as the claim states. -/
theorem message_api_error_nonempty_body :
    (handleMessage apiErrFix parseFixT 5 "b").status = 200 ∧
    (handleMessage apiErrFix parseFixT 5 "b").body ≠ "" :=
  ⟨rfl, by decide⟩

/-- C4 as amended: an API failure during handling of a text message yields
a 200 XML reply whose `Content` is the fixed fallback string
"Sorry, I'm having trouble thinking right now. Please try again later.";
the empty 200 body is reserved for errors that escape `getGeminiResponse`
(e.g. parse failures). -/
theorem message_api_error_fallback_reply (api : String → GenOutcome)
    (parseXml : String → Option InboundMsg) (now : Nat) (body : String)
    (m : InboundMsg) (hp : parseXml body = some m) (hty : m.msgType = "text")
    (ha : api m.content = .err) :
    handleMessage api parseXml now body =
      ⟨200, buildReplyXml ⟨m.fromUser, m.toUser, now, "text",
        "Sorry, I'm having trouble thinking right now. Please try again later."⟩⟩ := by
  simp [handleMessage, handleMessagePayload, hp, hty, getGeminiResponse, ha,
    replyPayload]

theorem message_api_error_fallback_reply_witness :
    parseFixT "b" = some msgTextFix ∧ msgTextFix.msgType = "text" ∧
    apiErrFix msgTextFix.content = .err ∧
    handleMessage apiErrFix parseFixT 5 "b" =
      ⟨200, buildReplyXml ⟨msgTextFix.fromUser, msgTextFix.toUser, 5, "text",
        "Sorry, I'm having trouble thinking right now. Please try again later."⟩⟩ :=
  ⟨rfl, rfl, rfl,
   message_api_error_fallback_reply apiErrFix parseFixT 5 "b" msgTextFix
     rfl rfl rfl⟩

/-- C9: submitting a blank-after-trim prompt changes nothing and performs
no API call; a successful call sets the response and leaves the error
cleared; a failing call sets the error (the thrown `Error`'s message, or
the fixed unknown-error text) and leaves the response cleared. -/
theorem form_submit_spec (api : String → SubmitOutcome) (s : FormState) :
    (jsTrim s.prompt = "" → handleSubmit api s = (s, false)) ∧
    (∀ txt : String, jsTrim s.prompt ≠ "" → api s.prompt = .ok (some txt) →
      handleSubmit api s =
        ({ s with response := txt, error := "", loading := false }, true)) ∧
    (∀ (isErr : Bool) (m : String), jsTrim s.prompt ≠ "" →
      api s.prompt = .thrown isErr m →
      handleSubmit api s =
        ({ s with
            response := "",
            error := if isErr then m else "An unknown error occurred.",
            loading := false }, true)) := by
  refine ⟨fun h => ?_, fun txt h ha => ?_, fun isErr m h ha => ?_⟩
  · simp [handleSubmit, h]
  · simp [handleSubmit, h, ha]
  · simp [handleSubmit, h, ha]

theorem form_submit_spec_witness :
    (jsTrim "  " = "" ∧
      handleSubmit formApiOkFix ⟨"  ", "old", "olderr", false⟩ =
        (⟨"  ", "old", "olderr", false⟩, false)) ∧
    (jsTrim "q" ≠ "" ∧ formApiOkFix "q" = .ok (some "hi") ∧
      handleSubmit formApiOkFix ⟨"q", "old", "olderr", false⟩ =
        (⟨"q", "hi", "", false⟩, true)) ∧
    (jsTrim "q" ≠ "" ∧ formApiErrFix "q" = .thrown true "boom" ∧
      handleSubmit formApiErrFix ⟨"q", "old", "olderr", false⟩ =
        (⟨"q", "", "boom", false⟩, true)) :=
  ⟨⟨by decide, (form_submit_spec formApiOkFix ⟨"  ", "old", "olderr", false⟩).1
      (by decide)⟩,
   ⟨by decide, rfl,
    (form_submit_spec formApiOkFix ⟨"q", "old", "olderr", false⟩).2.1 "hi"
      (by decide) rfl⟩,
   ⟨by decide, rfl,
    (form_submit_spec formApiErrFix ⟨"q", "old", "olderr", false⟩).2.2 true "boom"
      (by decide) rfl⟩⟩

theorem startsCD_nil : startsCD [] = false := by decide

theorem startsCD_one (c : Char) : startsCD [c] = false := by
  simp [startsCD, cdEnd]

theorem startsCD_two (c d : Char) : startsCD [c, d] = false := by
  simp [startsCD, cdEnd]

theorem startsCD_three (c d e : Char) (rest : List Char) :
    startsCD (c :: d :: e :: rest) = decide (c = ']' ∧ d = ']' ∧ e = '>') := by
  simp [startsCD, cdEnd]

theorem take2_shape (l : List Char) (x y : Char) (h : l.take 2 = [x, y]) :
    l = x :: y :: l.drop 2 := by
  cases l with
  | nil => simp at h
  | cons a l' =>
    cases l' with
    | nil => simp at h
    | cons b rest =>
      simp at h
      obtain ⟨h1, h2⟩ := h
      subst h1; subst h2
      rfl

theorem splitCD_cons_none (c : Char) (cs : List Char)
    (h : splitCD (c :: cs) = none) :
    startsCD (c :: cs) = false ∧ splitCD cs = none := by
  by_cases hsc : startsCD (c :: cs) = true
  · simp [splitCD, hsc] at h
  · refine ⟨by simpa using hsc, ?_⟩
    simp [splitCD, hsc] at h
    cases hcs : splitCD cs with
    | none => rfl
    | some p => rw [hcs] at h; cases p; simp at h

theorem startsCD_append_false (c : Char) (cs app : List Char)
    (happ : app.take 2 = [']', ']'])
    (h : startsCD (c :: cs) = false) :
    startsCD (c :: (cs ++ app)) = false := by
  have happ' : app = ']' :: ']' :: app.drop 2 := take2_shape app ']' ']' happ
  cases cs with
  | nil =>
    rw [List.nil_append, happ', startsCD_three]
    simp
  | cons x cs' =>
    cases cs' with
    | nil =>
      rw [List.cons_append, List.nil_append, happ', startsCD_three]
      simp
    | cons y cs'' =>
      rw [startsCD_three] at h
      rw [List.cons_append, List.cons_append, startsCD_three]
      exact h

theorem splitCD_append_cdEnd (a b : List Char) (h : splitCD a = none) :
    splitCD (a ++ (cdEnd ++ b)) = some (a, b) := by
  induction a with
  | nil =>
    simp only [List.nil_append, cdEnd, List.cons_append]
    rw [splitCD]
    have hs : startsCD (']' :: ']' :: '>' :: b) = true := by
      rw [startsCD_three]; simp
    rw [if_pos hs]
    simp
  | cons c cs ih =>
    obtain ⟨hsc, hcs⟩ := splitCD_cons_none c cs h
    have ih' := ih hcs
    rw [List.cons_append, splitCD]
    have hs2 : startsCD (c :: (cs ++ (cdEnd ++ b))) = false := by
      apply startsCD_append_false
      · simp [cdEnd]
      · exact hsc
    rw [if_neg (by simp [hs2]), ih']

theorem startsCD_extend_true (c : Char) (cs m : List Char)
    (h : startsCD (c :: cs) = true) :
    startsCD (c :: (cs ++ m)) = true := by
  cases cs with
  | nil => rw [startsCD_one] at h; exact absurd h (by simp)
  | cons x cs' =>
    cases cs' with
    | nil => rw [startsCD_two] at h; exact absurd h (by simp)
    | cons y cs'' =>
      rw [startsCD_three] at h
      rw [List.cons_append, List.cons_append, startsCD_three]
      exact h

theorem splitCD_some_shape (l : List Char) :
    ∀ u v, splitCD l = some (u, v) →
      l = u ++ (cdEnd ++ v) ∧ splitCD u = none := by
  induction l with
  | nil => intro u v h; simp [splitCD] at h
  | cons c cs ih =>
    intro u v h
    by_cases hsc : startsCD (c :: cs) = true
    · have h3 : (c :: cs).take 3 = cdEnd := by simpa [startsCD] using hsc
      have hshape : c :: cs = cdEnd ++ cs.drop 2 := by
        conv_lhs => rw [← List.take_append_drop 3 (c :: cs)]
        rw [h3]
        rfl
      rw [splitCD, if_pos hsc] at h
      simp only [Option.some.injEq, Prod.mk.injEq] at h
      obtain ⟨hu, hv⟩ := h
      subst hu
      refine ⟨?_, rfl⟩
      rw [List.nil_append, ← hv]
      exact hshape
    · have hsc' : startsCD (c :: cs) = false := by simpa using hsc
      rw [splitCD, if_neg (by simp [hsc'])] at h
      cases hcs : splitCD cs with
      | none => rw [hcs] at h; simp at h
      | some p =>
        obtain ⟨a, b⟩ := p
        rw [hcs] at h
        simp only [Option.some.injEq, Prod.mk.injEq] at h
        obtain ⟨hu, hv⟩ := h
        obtain ⟨hcs_shape, hcs_none⟩ := ih a b hcs
        subst hu; subst hv
        constructor
        · rw [List.cons_append, ← hcs_shape]
        · have hca : startsCD (c :: a) = false := by
            by_cases hca' : startsCD (c :: a) = true
            · exfalso
              have hext := startsCD_extend_true c a (cdEnd ++ b) hca'
              rw [← hcs_shape] at hext
              rw [hext] at hsc'
              exact absurd hsc' (by simp)
            · simpa using hca'
          rw [splitCD, if_neg (by simp [hca]), hcs_none]

theorem splitCD_append_brackets (u : List Char) (h : splitCD u = none) :
    splitCD (u ++ [']', ']']) = none := by
  induction u with
  | nil => decide
  | cons c cs ih =>
    obtain ⟨hsc, hcs⟩ := splitCD_cons_none c cs h
    have ih' := ih hcs
    rw [List.cons_append, splitCD]
    have hs2 : startsCD (c :: (cs ++ [']', ']'])) = false := by
      apply startsCD_append_false
      · rfl
      · exact hsc
    rw [if_neg (by simp [hs2]), ih']

theorem splitCD_cons_gt (v : List Char) (h : splitCD v = none) :
    splitCD ('>' :: v) = none := by
  rw [splitCD]
  have hs : startsCD ('>' :: v) = false := by
    cases v with
    | nil => rw [startsCD_one]
    | cons x v' =>
      cases v' with
      | nil => rw [startsCD_two]
      | cons y v'' => rw [startsCD_three]; simp
  rw [if_neg (by simp [hs]), h]

theorem cdOccs_cons_le (c : Char) (cs : List Char) :
    cdOccs cs ≤ cdOccs (c :: cs) := by
  rw [cdOccs]
  omega

theorem cdOccs_append_le (x m : List Char) : cdOccs m ≤ cdOccs (x ++ m) := by
  induction x with
  | nil => simp
  | cons c cs ih =>
    rw [List.cons_append]
    exact le_trans ih (cdOccs_cons_le c (cs ++ m))

theorem cdOccs_cdEnd_append (v : List Char) :
    1 + cdOccs v ≤ cdOccs (cdEnd ++ v) := by
  have h1 : startsCD (']' :: ']' :: '>' :: v) = true := by
    rw [startsCD_three]; simp
  show 1 + cdOccs v ≤ cdOccs (']' :: ']' :: '>' :: v)
  rw [cdOccs, h1, if_pos rfl]
  have h2 := cdOccs_cons_le ']' ('>' :: v)
  have h3 := cdOccs_cons_le '>' v
  omega

theorem splitCD_of_cdOccs_zero (l : List Char) (h : cdOccs l = 0) :
    splitCD l = none := by
  induction l with
  | nil => rfl
  | cons c cs ih =>
    rw [cdOccs] at h
    have hsc : startsCD (c :: cs) = false := by
      by_cases hb : startsCD (c :: cs) = true
      · rw [hb] at h; simp at h
      · simpa using hb
    rw [hsc] at h
    simp at h
    rw [splitCD, if_neg (by simp [hsc]), ih h]

theorem decode_nil (f : Nat) : decodeChunks f [] = some [] := by
  cases f <;> rfl

theorem mem_gt_of_startsCD (l : List Char) (h : startsCD l = true) :
    '>' ∈ l := by
  cases l with
  | nil => rw [startsCD_nil] at h; exact absurd h (by simp)
  | cons a l' =>
    cases l' with
    | nil => rw [startsCD_one] at h; exact absurd h (by simp)
    | cons b l'' =>
      cases l'' with
      | nil => rw [startsCD_two] at h; exact absurd h (by simp)
      | cons d rest =>
        rw [startsCD_three] at h
        simp only [decide_eq_true_eq] at h
        simp [h.2.2]

theorem decode_text (a : List Char)
    (h : ∀ c ∈ a, ¬(c = '<' ∨ c = '&' ∨ c = '>')) :
    ∀ f, a.length ≤ f → decodeChunks f a = some a := by
  induction a with
  | nil => intro f _; exact decode_nil f
  | cons c cs ih =>
    intro f hf
    have hc : ¬(c = '<' ∨ c = '&' ∨ c = '>') := h c (by simp)
    push_neg at hc
    obtain ⟨hc1, hc2, hc3⟩ := hc
    have hcs : ∀ x ∈ cs, ¬(x = '<' ∨ x = '&' ∨ x = '>') :=
      fun x hx => h x (by simp [hx])
    cases f with
    | zero => simp at hf
    | succ f' =>
      rw [decodeChunks]
      have h9 : ¬((c :: cs).take 9 = cdOpen) := by
        simp [cdOpen]
        intro hcl
        exact absurd hcl hc1
      rw [if_neg h9]
      have hb : (c == '<' || c == '&') = false := by
        simp [hc1, hc2]
      rw [hb]
      have hscd : startsCD (c :: cs) = false := by
        by_cases hs : startsCD (c :: cs) = true
        · exfalso
          have hm := mem_gt_of_startsCD _ hs
          rcases List.mem_cons.mp hm with hm | hm
          · exact hc3 hm.symm
          · exact (hcs '>' hm) (by simp)
        · simpa using hs
      rw [if_neg (by simp), if_neg (by simp [hscd])]
      have hrec := ih hcs f' (by simpa using Nat.succ_le_succ_iff.mp (by simpa using hf))
      rw [hrec]

theorem decode_cdata (a rest t : List Char) (ha : splitCD a = none) (f : Nat)
    (hrest : decodeChunks f rest = some t) :
    decodeChunks (f + 1) (cdOpen ++ (a ++ (cdEnd ++ rest))) = some (a ++ t) := by
  have hsplit := splitCD_append_cdEnd a rest ha
  have hform : cdOpen ++ (a ++ (cdEnd ++ rest)) =
      '<' :: '!' :: '[' :: 'C' :: 'D' :: 'A' :: 'T' :: 'A' :: '[' ::
        (a ++ (cdEnd ++ rest)) := rfl
  rw [hform, decodeChunks]
  have h9 : ('<' :: '!' :: '[' :: 'C' :: 'D' :: 'A' :: 'T' :: 'A' :: '[' ::
      (a ++ (cdEnd ++ rest))).take 9 = cdOpen := by
    simp [cdOpen]
  rw [if_pos h9]
  have hd : ('<' :: '!' :: '[' :: 'C' :: 'D' :: 'A' :: 'T' :: 'A' :: '[' ::
      (a ++ (cdEnd ++ rest))).drop 9 = a ++ (cdEnd ++ rest) := rfl
  rw [hd, hsplit]
  dsimp only
  rw [hrest]

theorem roundtrip_list (l : List Char) (h : cdOccs l ≤ 1) :
    decodeInner (contentElementInner l) = some l := by
  by_cases hreq : requiresCDATA l = true
  · rw [contentElementInner, if_pos (by simp [hreq]), wrapCDATA]
    cases hsp : splitCD l with
    | none =>
      simp only [escapeCDATA, hsp]
      have harr : cdOpen ++ l ++ cdEnd = cdOpen ++ (l ++ (cdEnd ++ [])) := by
        simp
      rw [harr, decodeInner]
      have hlen : (cdOpen ++ (l ++ (cdEnd ++ []))).length = (l.length + 11) + 1 := by
        simp [cdOpen, cdEnd]
      rw [hlen]
      have hmain := decode_cdata l [] [] hsp (l.length + 11) (decode_nil _)
      simpa using hmain
    | some p =>
      obtain ⟨u, v⟩ := p
      obtain ⟨hshape, hu⟩ := splitCD_some_shape l u v hsp
      have hocc : cdOccs v = 0 := by
        have h1 := cdOccs_append_le u (cdEnd ++ v)
        have h2 := cdOccs_cdEnd_append v
        rw [← hshape] at h1
        omega
      have hv := splitCD_of_cdOccs_zero v hocc
      have ha1 : splitCD (u ++ [']', ']']) = none := splitCD_append_brackets u hu
      have ha2 : splitCD ('>' :: v) = none := splitCD_cons_gt v hv
      simp only [escapeCDATA, hsp]
      have hre : cdOpen ++ (u ++ cdRepl ++ v) ++ cdEnd =
          cdOpen ++ ((u ++ [']', ']']) ++
            (cdEnd ++ (cdOpen ++ (('>' :: v) ++ (cdEnd ++ []))))) := by
        simp [cdRepl, cdOpen, cdEnd]
      rw [hre, decodeInner]
      have hlen : (cdOpen ++ ((u ++ [']', ']']) ++
          (cdEnd ++ (cdOpen ++ (('>' :: v) ++ (cdEnd ++ [])))))).length =
          ((u.length + v.length + 25) + 1) + 1 := by
        simp [cdOpen, cdEnd]
        omega
      rw [hlen]
      have hstep2 : decodeChunks ((u.length + v.length + 25) + 1)
          (cdOpen ++ (('>' :: v) ++ (cdEnd ++ []))) = some (('>' :: v) ++ []) :=
        decode_cdata ('>' :: v) [] [] ha2 _ (decode_nil _)
      have hstep1 := decode_cdata (u ++ [']', ']'])
        (cdOpen ++ (('>' :: v) ++ (cdEnd ++ []))) (('>' :: v) ++ [])
        ha1 ((u.length + v.length + 25) + 1) hstep2
      rw [hstep1, hshape]
      simp [cdEnd]
  · have hreq' : requiresCDATA l = false := by simpa using hreq
    rw [contentElementInner, if_neg (by simp [hreq'])]
    have hforall : ∀ c ∈ l, ¬(c = '<' ∨ c = '&' ∨ c = '>') := by
      intro c hc
      rw [requiresCDATA, List.any_eq_false] at hreq'
      have := hreq' c hc
      simp at this
      tauto
    rw [decodeInner]
    exact decode_text l hforall l.length le_rfl

/-- C8 counterexample: for the content string "]]>x]]>y", which contains two
occurrences of "]]>", the xml2js escaping rewrites only the first one, so
the serialized Content element is not well-formed element content and does
not parse back to the original string. -/
theorem cdata_roundtrip_cex :
    decodeInner (contentElementInner ("]]>x]]>y".data)) ≠
      some ("]]>x]]>y".data) := by decide

/-- C8 as amended: for every content string with at most one occurrence of
"]]>", the character data the Builder emits for the Content element is
well-formed and decodes back to exactly the original string (either the
string has no XML-significant characters and is emitted verbatim, or it is
CDATA-wrapped, with a single "]]>" correctly split by `escapeCDATA`). -/
theorem cdata_content_roundtrip (s : String) (h : cdOccs s.data ≤ 1) :
    decodeInner (contentElementInner s.data) = some s.data :=
  roundtrip_list s.data h

theorem cdata_content_roundtrip_witness : cdOccs ("a]]>b&c".data) ≤ 1 ∧
    decodeInner (contentElementInner ("a]]>b&c".data)) =
      some ("a]]>b&c".data) :=
  ⟨by decide, cdata_content_roundtrip "a]]>b&c" (by decide)⟩
